import Mathlib

/-!
Verification of the volchara rendering engine (scene graph, transform math,
geometry packing, draw submission, texture table, light buffer, glTF primitive
loading, and the frame scheduler's resize/abort path).

Every definition is a shallow embedding of the corresponding C++ function:
  - `src/src/objects.cpp`  : `Transform`, `Object::Object`, `GLTFModel::fromFile`
  - `src/src/renderer.cpp` : `putObjectsToBuffer`, `recordCommandBuffer`,
    `createTextureImage`, `addLight`, `drawFrame`, `recreateSwapChain`
Machine `float` arithmetic is modelled by exact arithmetic (`ℚ`, and `ℝ` for
the trigonometric quaternion operations); `uint32_t` counters by `Nat`.
-/

namespace Volchara

/-- Exact-arithmetic stand-in for `glm::vec3`. -/
structure Vec3 where
  x : ℚ
  y : ℚ
  z : ℚ
  deriving DecidableEq, Repr

/-- Exact-arithmetic stand-in for `glm::vec4`. -/
structure Vec4 where
  x : ℚ
  y : ℚ
  z : ℚ
  w : ℚ
  deriving DecidableEq, Repr

/-- Exact-arithmetic stand-in for `glm::quat` (w, x, y, z components). -/
structure Quat where
  w : ℚ
  x : ℚ
  y : ℚ
  z : ℚ
  deriving DecidableEq, Repr

/-- A 4×4 rational matrix (entry `mIJ` is row I, column J); stand-in for
`glm::mat4`, with the 16 entries spelled out so concrete instances reduce by
`decide`. -/
structure Mat4 where
  m00 : ℚ
  m01 : ℚ
  m02 : ℚ
  m03 : ℚ
  m10 : ℚ
  m11 : ℚ
  m12 : ℚ
  m13 : ℚ
  m20 : ℚ
  m21 : ℚ
  m22 : ℚ
  m23 : ℚ
  m30 : ℚ
  m31 : ℚ
  m32 : ℚ
  m33 : ℚ
  deriving DecidableEq, Repr

/-- Matrix product `A * B`. -/
def mat4Mul (A B : Mat4) : Mat4 where
  m00 := A.m00 * B.m00 + A.m01 * B.m10 + A.m02 * B.m20 + A.m03 * B.m30
  m01 := A.m00 * B.m01 + A.m01 * B.m11 + A.m02 * B.m21 + A.m03 * B.m31
  m02 := A.m00 * B.m02 + A.m01 * B.m12 + A.m02 * B.m22 + A.m03 * B.m32
  m03 := A.m00 * B.m03 + A.m01 * B.m13 + A.m02 * B.m23 + A.m03 * B.m33
  m10 := A.m10 * B.m00 + A.m11 * B.m10 + A.m12 * B.m20 + A.m13 * B.m30
  m11 := A.m10 * B.m01 + A.m11 * B.m11 + A.m12 * B.m21 + A.m13 * B.m31
  m12 := A.m10 * B.m02 + A.m11 * B.m12 + A.m12 * B.m22 + A.m13 * B.m32
  m13 := A.m10 * B.m03 + A.m11 * B.m13 + A.m12 * B.m23 + A.m13 * B.m33
  m20 := A.m20 * B.m00 + A.m21 * B.m10 + A.m22 * B.m20 + A.m23 * B.m30
  m21 := A.m20 * B.m01 + A.m21 * B.m11 + A.m22 * B.m21 + A.m23 * B.m31
  m22 := A.m20 * B.m02 + A.m21 * B.m12 + A.m22 * B.m22 + A.m23 * B.m32
  m23 := A.m20 * B.m03 + A.m21 * B.m13 + A.m22 * B.m23 + A.m23 * B.m33
  m30 := A.m30 * B.m00 + A.m31 * B.m10 + A.m32 * B.m20 + A.m33 * B.m30
  m31 := A.m30 * B.m01 + A.m31 * B.m11 + A.m32 * B.m21 + A.m33 * B.m31
  m32 := A.m30 * B.m02 + A.m31 * B.m12 + A.m32 * B.m22 + A.m33 * B.m32
  m33 := A.m30 * B.m03 + A.m31 * B.m13 + A.m32 * B.m23 + A.m33 * B.m33

/-- `glm::translate(v)`: identity with the translation in the last column. -/
def glmTranslate (t : Vec3) : Mat4 :=
  ⟨1, 0, 0, t.x,
   0, 1, 0, t.y,
   0, 0, 1, t.z,
   0, 0, 0, 1⟩

/-- `glm::scale(v)`: diagonal scaling matrix. -/
def glmScale (s : Vec3) : Mat4 :=
  ⟨s.x, 0, 0, 0,
   0, s.y, 0, 0,
   0, 0, s.z, 0,
   0, 0, 0, 1⟩

/-- `glm::toMat4(q)`: the standard rotation matrix of a quaternion. -/
def glmToMat4 (q : Quat) : Mat4 :=
  ⟨1 - 2*(q.y*q.y + q.z*q.z), 2*(q.x*q.y - q.w*q.z), 2*(q.x*q.z + q.w*q.y), 0,
   2*(q.x*q.y + q.w*q.z), 1 - 2*(q.x*q.x + q.z*q.z), 2*(q.y*q.z - q.w*q.x), 0,
   2*(q.x*q.z - q.w*q.y), 2*(q.y*q.z + q.w*q.x), 1 - 2*(q.x*q.x + q.y*q.y), 0,
   0, 0, 0, 1⟩

/-- The translation / scale / orientation data of `volchara::Transform`
(objects.hpp).  The back-reference to the owning node carries no data and is
dropped. -/
structure TransformQ where
  translation : Vec3 := ⟨0, 0, 0⟩
  scaling : Vec3 := ⟨1, 1, 1⟩
  rotationQuat : Quat := ⟨1, 0, 0, 0⟩
  deriving DecidableEq, Repr

/-- `Transform::modelMatrix` (objects.cpp:151-157): translation × rotation ×
scale of this transform alone; no parent/ancestor matrix enters. -/
def TransformQ.modelMatrix (t : TransformQ) : Mat4 :=
  mat4Mul (mat4Mul (glmTranslate t.translation) (glmToMat4 t.rotationQuat)) (glmScale t.scaling)

/-- The per-vertex data of `volchara::Vertex` (objects.hpp). -/
structure VertexQ where
  pos : Vec3 := ⟨0, 0, 0⟩
  normal : Vec3 := ⟨0, 0, 0⟩
  color : Vec3 := ⟨0, 0, 0⟩
  texCoordU : ℚ := 0
  texCoordV : ℚ := 0
  deriving DecidableEq, Repr

/-- The drawable data of a `volchara::Object` that the packing and draw loops
read: vertex array, index array, transparency flag, transform and the bound
texture indices (objects.hpp). -/
structure ObjData where
  vertices : List VertexQ := []
  indices : List Nat := []
  transparent : Bool := false
  transform : TransformQ := {}
  textureIndex : Nat := 0
  deriving DecidableEq, Repr

/-- `Object::Object` (objects.cpp:159-172): stores the vertices; when the
supplied index list is empty it auto-generates `0,1,...,n-1` via `std::iota`,
otherwise it stores the supplied indices unchanged. -/
def objectConstruct (initVertices : List VertexQ) (initIndices : List Nat)
    (translation scaling : Vec3) (rotation : Quat) : ObjData :=
  { vertices := initVertices
    indices := if initIndices.isEmpty then List.range initVertices.length else initIndices
    transform := ⟨translation, scaling, rotation⟩ }

/-- A scene-graph node: its own `ObjData` plus the owned `children` list
(`Object::children`, objects.hpp).  A tree value models the acyclic
parent/child pointer graph. -/
inductive ObjTree (α : Type) : Type where
  | mk (data : α) (children : List (ObjTree α)) : ObjTree α
  deriving Repr

/-- The payload of a node. -/
def ObjTree.data {α : Type} : ObjTree α → α
  | .mk d _ => d

/-- The child list of a node. -/
def ObjTree.children {α : Type} : ObjTree α → List (ObjTree α)
  | .mk _ cs => cs

mutual

/-- Number of nodes of a tree. -/
def ObjTree.size {α : Type} : ObjTree α → Nat
  | .mk _ cs => 1 + ObjTree.sizeList cs

/-- Number of nodes of a forest. -/
def ObjTree.sizeList {α : Type} : List (ObjTree α) → Nat
  | [] => 0
  | t :: ts => ObjTree.size t + ObjTree.sizeList ts

end

mutual

/-- Depth-first (preorder) listing of the nodes of a tree. -/
def ObjTree.dfs {α : Type} : ObjTree α → List (ObjTree α)
  | .mk d cs => .mk d cs :: ObjTree.dfsList cs

/-- Depth-first (preorder) listing of the nodes of a forest, roots in order. -/
def ObjTree.dfsList {α : Type} : List (ObjTree α) → List (ObjTree α)
  | [] => []
  | t :: ts => ObjTree.dfs t ++ ObjTree.dfsList ts

end

/-- The flattening loop of `Renderer::putObjectsToBuffer` (renderer.cpp:101-108):
`allObjects` starts as the root list and the loop appends each element's
children at the back while scanning left to right, so the vector is consumed
as a queue. -/
def flattenPut {α : Type} : List (ObjTree α) → List (ObjTree α)
  | [] => []
  | t :: rest => t :: flattenPut (rest ++ t.children)
termination_by q => ObjTree.sizeList q
decreasing_by
  have happ : ∀ (l₁ l₂ : List (ObjTree α)),
      ObjTree.sizeList (l₁ ++ l₂) = ObjTree.sizeList l₁ + ObjTree.sizeList l₂ := by
    intro l₁ l₂
    induction l₁ with
    | nil => simp [ObjTree.sizeList]
    | cons x xs ih => simp [ObjTree.sizeList, ih]; omega
  have hsize : ObjTree.size t = 1 + ObjTree.sizeList t.children := by
    cases t; rfl
  simp [ObjTree.sizeList, happ]
  omega

/-- The identical flattening loop duplicated in `Renderer::recordCommandBuffer`
(renderer.cpp:1618-1625). -/
def flattenRecord {α : Type} : List (ObjTree α) → List (ObjTree α)
  | [] => []
  | t :: rest => t :: flattenRecord (rest ++ t.children)
termination_by q => ObjTree.sizeList q
decreasing_by
  have happ : ∀ (l₁ l₂ : List (ObjTree α)),
      ObjTree.sizeList (l₁ ++ l₂) = ObjTree.sizeList l₁ + ObjTree.sizeList l₂ := by
    intro l₁ l₂
    induction l₁ with
    | nil => simp [ObjTree.sizeList]
    | cons x xs ih => simp [ObjTree.sizeList, ih]; omega
  have hsize : ObjTree.size t = 1 + ObjTree.sizeList t.children := by
    cases t; rfl
  simp [ObjTree.sizeList, happ]
  omega

/-- The packing loop of `Renderer::putObjectsToBuffer` (renderer.cpp:109-115)
over the already-flattened object list: objects with an empty vertex array are
skipped; otherwise the vertices are appended, the indices are appended rebased
by the running `indexOffset`, and the offset grows by the object's vertex
count. -/
def packGo : List ObjData → List VertexQ → List Nat → Nat → List VertexQ × List Nat
  | [], vs, is, _ => (vs, is)
  | o :: rest, vs, is, off =>
    if o.vertices.isEmpty then
      packGo rest vs is off
    else
      packGo rest (vs ++ o.vertices) (is ++ o.indices.map (· + off)) (off + o.vertices.length)

/-- The combined vertex buffer contents produced by `putObjectsToBuffer`. -/
def packVertices (objs : List ObjData) : List VertexQ := (packGo objs [] [] 0).1

/-- The combined index buffer contents produced by `putObjectsToBuffer`. -/
def packIndices (objs : List ObjData) : List Nat := (packGo objs [] [] 0).2

/-- Total vertex count of the objects actually packed (non-empty vertex
arrays) — the final value of `indexOffset`. -/
def packedVertCount (objs : List ObjData) : Nat :=
  ((objs.filter fun o => !o.vertices.isEmpty).map fun o => o.vertices.length).sum

/-- Total index count of the objects actually packed before position `i` of the
flattened list. -/
def packedIdxBefore (objs : List ObjData) (i : Nat) : Nat :=
  (((objs.take i).filter fun o => !o.vertices.isEmpty).map fun o => o.indices.length).sum

/-- Index count of all objects before position `i`, packed or not — the value
of `alreadyDrawn` when the draw loops reach position `i`. -/
def idxBefore (objs : List ObjData) (i : Nat) : Nat :=
  ((objs.take i).map fun o => o.indices.length).sum

/-- One recorded `drawIndexed` call of `recordCommandBuffer`: the push-constant
model matrix and texture index, and the `firstIndex` / index-count arguments. -/
structure DrawCmd where
  model : Mat4
  textureIndex : Nat
  firstIndex : Nat
  indexCount : Nat
  deriving DecidableEq

/-- The two draw loops of `recordCommandBuffer` (renderer.cpp:1626-1639 and
1656-1670), parameterised by the pass: `pass = false` is the geometry subpass
(skips transparent objects), `pass = true` the transparency subpass (skips
opaque objects).  Both loops advance `alreadyDrawn` by the object's index count
whether or not the object is drawn. -/
def drawPassGo (pass : Bool) : List ObjData → Nat → List DrawCmd
  | [], _ => []
  | o :: rest, acc =>
    if o.transparent = pass then
      ⟨o.transform.modelMatrix, o.textureIndex, acc, o.indices.length⟩
        :: drawPassGo pass rest (acc + o.indices.length)
    else
      drawPassGo pass rest (acc + o.indices.length)

/-- The draw calls recorded for one subpass from the scene-graph roots:
flatten (renderer.cpp:1618-1625), then the draw loop. -/
def recordDraws (pass : Bool) (roots : List (ObjTree ObjData)) : List DrawCmd :=
  drawPassGo pass ((flattenRecord roots).map ObjTree.data) 0

/-- `Renderer::createTextureImage` (renderer.cpp:1238-1270) acting on the
texture table: the decoded image is appended to `textures` and the new last
position `textures.size() - 1` is returned.  Decoding (`stbi_load_from_memory`)
and the GPU upload are external collaborators; `α` stands for a decoded
image.  No deduplication is performed (the `// TODO: deduplication` comment). -/
def createTextureImage {α : Type} (textures : List α) (img : α) : Nat × List α :=
  (textures.length, textures ++ [img])

/-- Indices returned by a sequence of `createTextureImage` calls starting from
a given texture table. -/
def createTextureSeq {α : Type} : List α → List α → List Nat
  | _, [] => []
  | textures, img :: rest =>
    let r := createTextureImage textures img
    r.1 :: createTextureSeq r.2 rest

/-- One record of the `GPULight lights[32]` array (objects.hpp:66-69). -/
structure GPULight where
  position : Vec4 := ⟨0, 0, 0, 0⟩
  color : Vec4 := ⟨0, 0, 0, 0⟩
  deriving DecidableEq, Repr

/-- `GPULightHeader` (objects.hpp:71-75): the ambient term and the live light
count. -/
structure GPULightHeader where
  ambient : Vec4 := ⟨0, 0, 0, 0⟩
  lightCount : Nat := 0
  deriving DecidableEq, Repr

/-- `GPULightsBuffer` (objects.hpp:77-80): header plus the fixed-capacity
array of 32 light records, modelled as a total function on `Fin 32` so every
access is in bounds by construction. -/
structure GPULightsBuffer where
  header : GPULightHeader := {}
  lights : Fin 32 → GPULight := fun _ => {}

/-- The data of a `DirectionalLight` node read by `addLight`: color,
brightness and the transform's translation (objects.hpp:196-209). -/
structure DirectionalLightData where
  color : Vec3
  brightness : ℚ
  translation : Vec3
  deriving DecidableEq, Repr

/-- `Renderer::addLight` (renderer.cpp:68-73): writes color = (color,
brightness) and position = (translation, 0) into `lights[lightCount]`, then
increments `lightCount`.  The source performs no capacity check; the write is
only well defined below the capacity of 32, which the hypothesis `h`
captures. -/
def addLight (s : GPULightsBuffer) (l : DirectionalLightData)
    (h : s.header.lightCount < 32) : GPULightsBuffer :=
  { header := { s.header with lightCount := s.header.lightCount + 1 }
    lights := Function.update s.lights ⟨s.header.lightCount, h⟩
      { position := ⟨l.translation.x, l.translation.y, l.translation.z, 0⟩
        color := ⟨l.color.x, l.color.y, l.color.z, l.brightness⟩ } }

/-- One glTF mesh primitive as seen by the loading loop of
`GLTFModel::fromFile` (objects.cpp:286-348): its topology `mode`
(`TINYGLTF_MODE_TRIANGLES = 4`), whether the POSITION / TEXCOORD_0 attributes
are present and have the required accessor types, the decoded vertex payload,
and the optional explicit index payload (`prim.indices >= 0`). -/
structure GltfPrim (α : Type) where
  mode : Nat := 4
  hasPosition : Bool := true
  positionVec3Float : Bool := true
  hasTexCoord : Bool := true
  texCoordVec2Float : Bool := true
  payloadVertices : List α := []
  payloadIndices : Option (List Nat) := none
  deriving DecidableEq, Repr

/-- The primitive-processing loop of `GLTFModel::fromFile`
(objects.cpp:286-348), with the accumulated `resVertices` / `resIndices` as
explicit arguments.  A non-triangle topology (mode ≠ 4 and ≠ 0) throws; a
primitive without POSITION or without TEXCOORD_0 is skipped by `continue`;
a present attribute with the wrong accessor type throws; otherwise the
vertices are appended and the indices are appended rebased by the vertex count
accumulated so far (or generated consecutively when the primitive has no index
accessor). -/
def loadPrims {α : Type} :
    List (GltfPrim α) → List α → List Nat → Except String (List α × List Nat)
  | [], vs, is => .ok (vs, is)
  | p :: rest, vs, is =>
    if p.mode ≠ 4 ∧ p.mode ≠ 0 then
      .error "failed to load gltf: currently only triangle load available"
    else if !p.hasPosition then
      loadPrims rest vs is
    else if !p.positionVec3Float then
      .error "failed to load gltf: position not vec3 float"
    else if !p.hasTexCoord then
      loadPrims rest vs is
    else if !p.texCoordVec2Float then
      .error "failed to load gltf: uv not vec2 float"
    else
      match p.payloadIndices with
      | some idxs =>
        loadPrims rest (vs ++ p.payloadVertices) (is ++ idxs.map (· + vs.length))
      | none =>
        loadPrims rest (vs ++ p.payloadVertices)
          (is ++ (List.range p.payloadVertices.length).map (· + vs.length))

/-- A primitive the loader accepts without throwing: triangle topology, and
each present required attribute has the required accessor type. -/
def goodPrim {α : Type} (p : GltfPrim α) : Prop :=
  (p.mode = 4 ∨ p.mode = 0) ∧ (p.hasPosition → p.positionVec3Float)
    ∧ (p.hasTexCoord → p.texCoordVec2Float)

/-- A primitive that actually contributes geometry: both required attributes
present (otherwise the loop `continue`s past it). -/
def contributes {α : Type} (p : GltfPrim α) : Bool :=
  p.hasPosition && p.hasTexCoord

/-- Concatenation of a list of lists. -/
def concatAll {α : Type} : List (List α) → List α
  | [] => []
  | l :: ls => l ++ concatAll ls

/-- The result of `swapChain.acquireNextImage` as inspected by `drawFrame`
(renderer.cpp:1719-1724). -/
inductive AcquireResult : Type where
  | success (imageIndex : Nat)
  | outOfDate
  | suboptimal
  deriving DecidableEq, Repr

/-- The frame-scheduler state observable across one `drawFrame` call.
Recreatable GPU resources are modelled by generation counters: recreating a
resource increments its counter, so "rebuilt during this frame" is
"counter incremented".  `submitted` / `presented` count queue submissions and
presentations, `currentFrame` is the in-flight slot index. -/
structure FrameState where
  currentFrame : Nat := 0
  framebufferResized : Bool := false
  swapChainGen : Nat := 0
  imageViewsGen : Nat := 0
  depthGen : Nat := 0
  emissiveGen : Nat := 0
  normalGen : Nat := 0
  intermediateColorGen : Nat := 0
  framebuffersGen : Nat := 0
  submitted : Nat := 0
  presented : Nat := 0
  deriving DecidableEq, Repr

/-- `MAX_FRAMES_IN_FLIGHT` (renderer.hpp:27). -/
def maxFramesInFlight : Nat := 2

/-- `Renderer::recreateSwapChain` (renderer.cpp:1553-1567): recreates the swap
chain, the image views, the depth resources and the framebuffers — and nothing
else (the emissive / normal / intermediate-color attachments are not
recreated). -/
def recreateSwapChain (s : FrameState) : FrameState :=
  { s with
    swapChainGen := s.swapChainGen + 1
    imageViewsGen := s.imageViewsGen + 1
    depthGen := s.depthGen + 1
    framebuffersGen := s.framebuffersGen + 1 }

/-- The acquisition / submission / presentation control flow of
`Renderer::drawFrame` (renderer.cpp:1691-1761).  `frameGateOk` is the
frame-rate cap (early return when too little time has passed); `acq` the
acquisition result.  When acquisition reports out-of-date or suboptimal, or
the resize flag is set, the flag is cleared, `recreateSwapChain` runs and the
function returns — nothing is submitted or presented and `currentFrame` is
unchanged.  Otherwise the frame is recorded, submitted, presented, and the
slot index advances modulo `maxFramesInFlight`. -/
def drawFrame (s : FrameState) (frameGateOk : Bool) (acq : AcquireResult) : FrameState :=
  if !frameGateOk then
    s
  else if acq = .outOfDate ∨ acq = .suboptimal ∨ s.framebufferResized then
    recreateSwapChain { s with framebufferResized := false }
  else
    { s with
      submitted := s.submitted + 1
      presented := s.presented + 1
      currentFrame := (s.currentFrame + 1) % maxFramesInFlight }

end Volchara

namespace VolcharaRot

open Quaternion

/-- `glm::quat(glm::vec3 eulerAngles)`: the quaternion built from Euler angles
(pitch, yaw, roll), as computed by glm's closed form with `c = cos(e/2)`,
`s = sin(e/2)` per component.  This is the constructor the rotation operations
of `Transform::Rotation` (objects.cpp:120-149) call. -/
noncomputable def glmQuatFromEuler (e1 e2 e3 : ℝ) : Quaternion ℝ :=
  ⟨Real.cos (e1/2) * Real.cos (e2/2) * Real.cos (e3/2)
      + Real.sin (e1/2) * Real.sin (e2/2) * Real.sin (e3/2),
    Real.sin (e1/2) * Real.cos (e2/2) * Real.cos (e3/2)
      - Real.cos (e1/2) * Real.sin (e2/2) * Real.sin (e3/2),
    Real.cos (e1/2) * Real.sin (e2/2) * Real.cos (e3/2)
      + Real.sin (e1/2) * Real.cos (e2/2) * Real.sin (e3/2),
    Real.cos (e1/2) * Real.cos (e2/2) * Real.sin (e3/2)
      - Real.sin (e1/2) * Real.sin (e2/2) * Real.cos (e3/2)⟩

/-- `glm::normalize(q)`: the quaternion divided by its length. -/
noncomputable def glmNormalize (q : Quaternion ℝ) : Quaternion ℝ := ‖q‖⁻¹ • q

/-- The six rotation directions of `Transform::Rotation` (objects.hpp:116-127). -/
inductive RotDir : Type where
  | up | down | left | right | cw | ccw
  deriving DecidableEq, Repr

/-- One call `rotation.{up,down,left,right,cw,ccw}(degrees, world)`. -/
structure RotOp where
  dir : RotDir
  degrees : ℝ
  world : Bool

/-- `Transform::Rotation::up` (objects.cpp:120-126): multiply by the
incremental rotation `glm::quat({degrees, 0, 0})` on the left (world frame) or
right (local frame), then normalize. -/
noncomputable def rotUp (degrees : ℝ) (world : Bool) (q : Quaternion ℝ) : Quaternion ℝ :=
  if world then glmNormalize (glmQuatFromEuler degrees 0 0 * q)
  else glmNormalize (q * glmQuatFromEuler degrees 0 0)

/-- `Transform::Rotation::down` (objects.cpp:127-129): `up(-degrees, world)`. -/
noncomputable def rotDown (degrees : ℝ) (world : Bool) (q : Quaternion ℝ) : Quaternion ℝ :=
  rotUp (-degrees) world q

/-- `Transform::Rotation::left` (objects.cpp:130-136): incremental rotation
`glm::quat({0, degrees, 0})`, then normalize. -/
noncomputable def rotLeft (degrees : ℝ) (world : Bool) (q : Quaternion ℝ) : Quaternion ℝ :=
  if world then glmNormalize (glmQuatFromEuler 0 degrees 0 * q)
  else glmNormalize (q * glmQuatFromEuler 0 degrees 0)

/-- `Transform::Rotation::right` (objects.cpp:137-139): `left(-degrees, world)`. -/
noncomputable def rotRight (degrees : ℝ) (world : Bool) (q : Quaternion ℝ) : Quaternion ℝ :=
  rotLeft (-degrees) world q

/-- `Transform::Rotation::cw` (objects.cpp:140-146): incremental rotation
`glm::quat({0, 0, -degrees})`, then normalize. -/
noncomputable def rotCw (degrees : ℝ) (world : Bool) (q : Quaternion ℝ) : Quaternion ℝ :=
  if world then glmNormalize (glmQuatFromEuler 0 0 (-degrees) * q)
  else glmNormalize (q * glmQuatFromEuler 0 0 (-degrees))

/-- `Transform::Rotation::ccw` (objects.cpp:147-149): `cw(-degrees, world)`. -/
noncomputable def rotCcw (degrees : ℝ) (world : Bool) (q : Quaternion ℝ) : Quaternion ℝ :=
  rotCw (-degrees) world q

/-- Dispatch of one rotation operation. -/
noncomputable def applyRotOp (op : RotOp) (q : Quaternion ℝ) : Quaternion ℝ :=
  match op.dir with
  | .up => rotUp op.degrees op.world q
  | .down => rotDown op.degrees op.world q
  | .left => rotLeft op.degrees op.world q
  | .right => rotRight op.degrees op.world q
  | .cw => rotCw op.degrees op.world q
  | .ccw => rotCcw op.degrees op.world q

/-- A sequence of rotation operations applied in order. -/
noncomputable def applyRotOps (ops : List RotOp) (q : Quaternion ℝ) : Quaternion ℝ :=
  ops.foldl (fun acc op => applyRotOp op acc) q

end VolcharaRot

namespace Volchara

theorem packGo_snd_append (o : ObjData) (ho : o.vertices ≠ []) :
    ∀ (objs : List ObjData) (vs : List VertexQ) (acc : List Nat) (off : Nat),
      (packGo (objs ++ [o]) vs acc off).2
        = (packGo objs vs acc off).2 ++ o.indices.map (· + (off + packedVertCount objs)) := by
  intro objs
  induction objs with
  | nil =>
    intro vs acc off
    have hne : o.vertices.isEmpty = false := by
      simpa [List.isEmpty_iff] using ho
    simp [packGo, hne, packedVertCount]
  | cons x rest ih =>
    intro vs acc off
    by_cases hx : x.vertices.isEmpty
    · have hc : packedVertCount (x :: rest) = packedVertCount rest := by
        simp [packedVertCount, hx]
      simp only [List.cons_append, packGo, hx, if_true, hc]
      exact ih vs acc off
    · have hc : packedVertCount (x :: rest) = x.vertices.length + packedVertCount rest := by
        simp [packedVertCount, hx]
      simp only [List.cons_append, packGo, hx, Bool.false_eq_true, if_false, ite_false,
        List.append_eq]
      rw [ih]
      have hassoc : off + x.vertices.length + packedVertCount rest
          = off + packedVertCount (x :: rest) := by
        rw [hc]; omega
      rw [hassoc]

/-- C3: the combined index buffer rebases each appended object's indices by
the running sum (`indexOffset`) of the vertex counts of the objects packed
before it (`Renderer::putObjectsToBuffer`, renderer.cpp:109-122). -/
theorem pack_rebases_indices_by_prior_vertex_count
    (objs : List ObjData) (o : ObjData) (ho : o.vertices ≠ []) :
    packIndices (objs ++ [o])
      = packIndices objs ++ o.indices.map (· + packedVertCount objs) := by
  have h := packGo_snd_append o ho objs [] [] 0
  simpa [packIndices] using h

/-- Witness for C3 at the spec's example: two nodes with 3 and 4 indices; the
second node's indices end up offset by exactly the first node's vertex
count (3). -/
theorem pack_rebases_indices_witness :
    (({ vertices := [{}, {}, {}], indices := [0, 1, 2, 0] } : ObjData)).vertices ≠ [] ∧
    packIndices [{ vertices := [{}, {}, {}], indices := [0, 1, 2] },
                 { vertices := [{}, {}, {}], indices := [0, 1, 2, 0] }]
      = packIndices [({ vertices := [{}, {}, {}], indices := [0, 1, 2] } : ObjData)]
        ++ [0, 1, 2, 0].map
          (· + packedVertCount [({ vertices := [{}, {}, {}], indices := [0, 1, 2] } : ObjData)]) :=
  ⟨by decide,
    pack_rebases_indices_by_prior_vertex_count
      [{ vertices := [{}, {}, {}], indices := [0, 1, 2] }]
      { vertices := [{}, {}, {}], indices := [0, 1, 2, 0] } (by decide)⟩

/-- C4: texture indices are handed out monotonically, equal to the table
length at creation time, and are never reused: a sequence of
`createTextureImage` calls starting from a table of `n` entries returns
exactly `n, n+1, n+2, ...`; in particular, starting from the empty table,
loading A, then B, then A again (no deduplication) returns `[0, 1, 2]`. -/
theorem texture_indices_monotone :
    (∀ (α : Type) (ts imgs : List α),
      createTextureSeq ts imgs = List.range' ts.length imgs.length) ∧
    (∀ (α : Type) (ts imgs : List α),
      (createTextureSeq ts imgs).Pairwise (· < ·)) ∧
    (∀ (α : Type) (a b : α), createTextureSeq ([] : List α) [a, b, a] = [0, 1, 2]) := by
  have key : ∀ (α : Type) (imgs ts : List α),
      createTextureSeq ts imgs = List.range' ts.length imgs.length := by
    intro α imgs
    induction imgs with
    | nil => intro ts; simp [createTextureSeq]
    | cons i rest ih =>
      intro ts
      have h2 := ih (ts ++ [i])
      simp only [List.length_append, List.length_cons, List.length_nil] at h2
      simp [createTextureSeq, createTextureImage, h2, List.range'_succ]
  refine ⟨fun α ts imgs => key α imgs ts, ?_, fun α a b => key α [a, b, a] []⟩
  intro α ts imgs
  rw [key α imgs ts]
  exact List.pairwise_lt_range' _ _ 1 (Nat.le_refl 1)

/-- C7: below the capacity of 32, `Renderer::addLight` (renderer.cpp:68-73)
writes exactly one record — position `(translation, 0)` and color
`(color, brightness)` — at the array slot equal to the old count, increments
the count by one, and leaves every other light record and the ambient term
unchanged. -/
theorem addLight_spec (s : GPULightsBuffer) (l : DirectionalLightData)
    (h : s.header.lightCount < 32) :
    (addLight s l h).lights ⟨s.header.lightCount, h⟩
        = { position := ⟨l.translation.x, l.translation.y, l.translation.z, 0⟩
            color := ⟨l.color.x, l.color.y, l.color.z, l.brightness⟩ } ∧
    (∀ i : Fin 32, i ≠ ⟨s.header.lightCount, h⟩ → (addLight s l h).lights i = s.lights i) ∧
    (addLight s l h).header.lightCount = s.header.lightCount + 1 ∧
    (addLight s l h).header.ambient = s.header.ambient := by
  refine ⟨?_, ?_, rfl, rfl⟩
  · simp [addLight]
  · intro i hi
    simp only [addLight]
    exact Function.update_noteq hi _ _

/-- Witness for C7: adding one light to the empty light buffer. -/
theorem addLight_witness :
    ({} : GPULightsBuffer).header.lightCount < 32 ∧
    (addLight {} ⟨⟨1, 2, 3⟩, 4, ⟨5, 6, 7⟩⟩ (by decide)).header.lightCount
      = ({} : GPULightsBuffer).header.lightCount + 1 ∧
    (addLight {} ⟨⟨1, 2, 3⟩, 4, ⟨5, 6, 7⟩⟩ (by decide)).lights ⟨0, by decide⟩
      = { position := ⟨5, 6, 7, 0⟩, color := ⟨1, 2, 3, 4⟩ } :=
  ⟨by decide,
    (addLight_spec {} ⟨⟨1, 2, 3⟩, 4, ⟨5, 6, 7⟩⟩ (by decide)).2.2.1,
    (addLight_spec {} ⟨⟨1, 2, 3⟩, 4, ⟨5, 6, 7⟩⟩ (by decide)).1⟩

/-- C6 (amended): on an out-of-date / suboptimal acquisition or a pending
resize flag, `drawFrame` aborts the frame: nothing is submitted or presented,
the frame-slot index does not advance, the resize flag is cleared, and the
swap chain, image views, depth resources and framebuffers are recreated — but
the intermediate color, emissive and normal attachments are not. -/
theorem drawFrame_abort_spec (s : FrameState) (acq : AcquireResult)
    (h : acq = .outOfDate ∨ acq = .suboptimal ∨ s.framebufferResized = true) :
    (drawFrame s true acq).submitted = s.submitted ∧
    (drawFrame s true acq).presented = s.presented ∧
    (drawFrame s true acq).currentFrame = s.currentFrame ∧
    (drawFrame s true acq).framebufferResized = false ∧
    (drawFrame s true acq).swapChainGen = s.swapChainGen + 1 ∧
    (drawFrame s true acq).imageViewsGen = s.imageViewsGen + 1 ∧
    (drawFrame s true acq).depthGen = s.depthGen + 1 ∧
    (drawFrame s true acq).framebuffersGen = s.framebuffersGen + 1 ∧
    (drawFrame s true acq).intermediateColorGen = s.intermediateColorGen ∧
    (drawFrame s true acq).emissiveGen = s.emissiveGen ∧
    (drawFrame s true acq).normalGen = s.normalGen := by
  have hcond : acq = AcquireResult.outOfDate ∨ acq = AcquireResult.suboptimal
      ∨ s.framebufferResized := by
    rcases h with h | h | h
    · exact Or.inl h
    · exact Or.inr (Or.inl h)
    · exact Or.inr (Or.inr h)
  simp [drawFrame, hcond, recreateSwapChain]

/-- Witness for C6: an out-of-date acquisition from the initial state. -/
theorem drawFrame_abort_witness :
    ((AcquireResult.outOfDate = AcquireResult.outOfDate) ∨
      (AcquireResult.outOfDate = AcquireResult.suboptimal) ∨
      (({} : FrameState).framebufferResized = true)) ∧
    (drawFrame {} true .outOfDate).submitted = ({} : FrameState).submitted ∧
    (drawFrame {} true .outOfDate).currentFrame = ({} : FrameState).currentFrame ∧
    (drawFrame {} true .outOfDate).swapChainGen = ({} : FrameState).swapChainGen + 1 :=
  ⟨Or.inl rfl,
    (drawFrame_abort_spec {} .outOfDate (Or.inl rfl)).1,
    (drawFrame_abort_spec {} .outOfDate (Or.inl rfl)).2.2.1,
    (drawFrame_abort_spec {} .outOfDate (Or.inl rfl)).2.2.2.2.1⟩

/-- C6 counterexample: the claim lists the intermediate attachments among the
resources rebuilt on the abort path, but `recreateSwapChain`
(renderer.cpp:1553-1567) does not recreate them: after an out-of-date
acquisition the intermediate-color attachment generation is unchanged (a
rebuild would have incremented it, as it does for the swap chain). -/
theorem drawFrame_intermediate_not_rebuilt :
    (drawFrame {} true .outOfDate).intermediateColorGen
        = ({} : FrameState).intermediateColorGen ∧
    (drawFrame {} true .outOfDate).emissiveGen = ({} : FrameState).emissiveGen ∧
    (drawFrame {} true .outOfDate).normalGen = ({} : FrameState).normalGen ∧
    (drawFrame {} true .outOfDate).swapChainGen = ({} : FrameState).swapChainGen + 1 ∧
    ({} : FrameState).intermediateColorGen ≠ ({} : FrameState).intermediateColorGen + 1 := by
  refine ⟨rfl, rfl, rfl, rfl, by decide⟩

/-- C10: `Object::Object` auto-generates the identity index sequence
`0, 1, ..., n-1` when the supplied index list is empty, and stores a non-empty
supplied index list unchanged (objects.cpp:159-172). -/
theorem object_construct_indices :
    (∀ (vs : List VertexQ) (t s : Vec3) (r : Quat),
      (objectConstruct vs [] t s r).indices = List.range vs.length) ∧
    (∀ (vs : List VertexQ) (idxs : List Nat) (t s : Vec3) (r : Quat), idxs ≠ [] →
      (objectConstruct vs idxs t s r).indices = idxs) := by
  constructor
  · intro vs t s r
    simp [objectConstruct]
  · intro vs idxs t s r hne
    simp [objectConstruct, hne]

/-- Witness for C10: three vertices with no indices give `[0, 1, 2]`; a
supplied index list is kept as is. -/
theorem object_construct_indices_witness :
    (objectConstruct [{}, {}, {}] [] ⟨0, 0, 0⟩ ⟨1, 1, 1⟩ ⟨1, 0, 0, 0⟩).indices = [0, 1, 2] ∧
    (([5, 5] : List Nat) ≠ [] ∧
      (objectConstruct [{}, {}, {}] [5, 5] ⟨0, 0, 0⟩ ⟨1, 1, 1⟩ ⟨1, 0, 0, 0⟩).indices = [5, 5]) :=
  ⟨by
    have h := object_construct_indices.1 [{}, {}, {}] ⟨0, 0, 0⟩ ⟨1, 1, 1⟩ ⟨1, 0, 0, 0⟩
    simpa using h,
   by decide,
   object_construct_indices.2 [{}, {}, {}] [5, 5] ⟨0, 0, 0⟩ ⟨1, 1, 1⟩ ⟨1, 0, 0, 0⟩ (by decide)⟩

theorem loadPrims_acc (ps : List (GltfPrim Nat)) (hgood : ∀ p ∈ ps, goodPrim p) :
    ∀ (vs : List Nat) (acc : List Nat), ∃ idxOut,
      loadPrims ps vs acc
        = .ok (vs ++ concatAll ((ps.filter contributes).map GltfPrim.payloadVertices), idxOut) := by
  induction ps with
  | nil =>
    intro vs acc
    exact ⟨acc, by simp [loadPrims, concatAll]⟩
  | cons p rest ih =>
    intro vs acc
    obtain ⟨hmode, hpos, htex⟩ := hgood p (List.mem_cons_self p rest)
    have hrest : ∀ q ∈ rest, goodPrim q := fun q hq => hgood q (List.mem_cons_of_mem p hq)
    have hmode2 : ¬(p.mode ≠ 4 ∧ p.mode ≠ 0) := by
      rcases hmode with h | h <;> simp [h]
    by_cases hp : p.hasPosition
    · have hposok : p.positionVec3Float = true := hpos hp
      by_cases ht : p.hasTexCoord
      · have htexok : p.texCoordVec2Float = true := htex ht
        have hcontrib : contributes p = true := by simp [contributes, hp, ht]
        cases hidx : p.payloadIndices with
        | some idxs =>
          obtain ⟨out, hout⟩ := ih hrest (vs ++ p.payloadVertices)
            (acc ++ idxs.map (· + vs.length))
          refine ⟨out, ?_⟩
          simp only [loadPrims, hmode2, if_false, hp, hposok, ht, htexok, hidx,
            Bool.not_true, Bool.false_eq_true, ite_false, if_neg, not_false_iff]
          rw [hout]
          simp [hcontrib, concatAll, List.filter_cons]
        | none =>
          obtain ⟨out, hout⟩ := ih hrest (vs ++ p.payloadVertices)
            (acc ++ (List.range p.payloadVertices.length).map (· + vs.length))
          refine ⟨out, ?_⟩
          simp only [loadPrims, hmode2, if_false, hp, hposok, ht, htexok, hidx,
            Bool.not_true, Bool.false_eq_true, ite_false, if_neg, not_false_iff]
          rw [hout]
          simp [hcontrib, concatAll, List.filter_cons]
      · have hskip : contributes p = false := by simp [contributes, ht]
        obtain ⟨out, hout⟩ := ih hrest vs acc
        refine ⟨out, ?_⟩
        simp only [loadPrims, hmode2, if_false, hp, hposok, ht,
          Bool.not_true, Bool.not_false, Bool.false_eq_true, ite_false, ite_true, if_neg,
          not_false_iff]
        rw [hout]
        simp [hskip, List.filter_cons]
    · have hskip : contributes p = false := by simp [contributes, hp]
      obtain ⟨out, hout⟩ := ih hrest vs acc
      refine ⟨out, ?_⟩
      simp only [loadPrims, hmode2, if_false, hp,
        Bool.not_true, Bool.not_false, Bool.false_eq_true, ite_false, ite_true, if_neg,
        not_false_iff]
      rw [hout]
      simp [hskip, List.filter_cons]

theorem loadPrims_bad_topology (ps : List (GltfPrim Nat))
    (hbad : ∃ p ∈ ps, ¬(p.mode = 4 ∨ p.mode = 0)) :
    ∀ (vs : List Nat) (acc : List Nat), ∃ e, loadPrims ps vs acc = .error e := by
  induction ps with
  | nil => simp at hbad
  | cons p rest ih =>
    intro vs acc
    by_cases hp : p.mode ≠ 4 ∧ p.mode ≠ 0
    · exact ⟨"failed to load gltf: currently only triangle load available",
        by simp [loadPrims, hp]⟩
    · have hrest : ∃ q ∈ rest, ¬(q.mode = 4 ∨ q.mode = 0) := by
        rcases hbad with ⟨q, hq, hqbad⟩
        rcases List.mem_cons.mp hq with rfl | hq2
        · exact absurd (fun h => hqbad (by tauto)) (by tauto)
        · exact ⟨q, hq2, hqbad⟩
      simp only [loadPrims, hp, if_false, ite_false, if_neg, not_false_iff]
      by_cases h1 : p.hasPosition
      · by_cases h2 : p.positionVec3Float
        · by_cases h3 : p.hasTexCoord
          · by_cases h4 : p.texCoordVec2Float
            · cases hidx : p.payloadIndices with
              | some idxs =>
                obtain ⟨e, he⟩ := ih hrest (vs ++ p.payloadVertices)
                  (acc ++ idxs.map (· + vs.length))
                exact ⟨e, by simp [h1, h2, h3, h4, hidx, he]⟩
              | none =>
                obtain ⟨e, he⟩ := ih hrest (vs ++ p.payloadVertices)
                  (acc ++ (List.range p.payloadVertices.length).map (· + vs.length))
                exact ⟨e, by simp [h1, h2, h3, h4, hidx, he]⟩
            · exact ⟨"failed to load gltf: uv not vec2 float", by simp [h1, h2, h3, h4]⟩
          · obtain ⟨e, he⟩ := ih hrest vs acc
            exact ⟨e, by simp [h1, h2, h3, he]⟩
        · exact ⟨"failed to load gltf: position not vec3 float", by simp [h1, h2]⟩
      · obtain ⟨e, he⟩ := ih hrest vs acc
        exact ⟨e, by simp [h1, he]⟩

/-- C5 (amended): a mesh primitive with an unsupported (non-triangle) topology
makes `GLTFModel::fromFile` throw a descriptive error, so no object is
produced; but a triangle primitive missing POSITION or TEXCOORD_0 is silently
skipped by `continue` (objects.cpp:291-294, 299-302) — the loaded geometry is
exactly the concatenation of the primitives that carry both attributes, with
no error and no partial geometry from skipped primitives. -/
theorem gltf_load_spec :
    (∀ (ps : List (GltfPrim Nat)) (vs acc : List Nat),
      (∃ p ∈ ps, ¬(p.mode = 4 ∨ p.mode = 0)) → ∃ e, loadPrims ps vs acc = .error e) ∧
    (∀ (ps : List (GltfPrim Nat)), (∀ p ∈ ps, goodPrim p) → ∃ idxOut,
      loadPrims ps [] []
        = .ok (concatAll ((ps.filter contributes).map GltfPrim.payloadVertices), idxOut)) := by
  constructor
  · intro ps vs acc hbad
    exact loadPrims_bad_topology ps hbad vs acc
  · intro ps hgood
    obtain ⟨out, hout⟩ := loadPrims_acc ps hgood [] []
    exact ⟨out, by simpa using hout⟩

/-- Witness for C5: a one-primitive list with line topology (mode 1) is
rejected with an error; a good triangle primitive list missing TEXCOORD_0 on
its second primitive loads only the first primitive's vertices. -/
theorem gltf_load_witness :
    (∃ p ∈ [({ mode := 1 } : GltfPrim Nat)], ¬(p.mode = 4 ∨ p.mode = 0)) ∧
    (∃ e, loadPrims [({ mode := 1 } : GltfPrim Nat)] [] [] = .error e) ∧
    (∀ p ∈ [({ payloadVertices := [7] } : GltfPrim Nat),
            { hasTexCoord := false, payloadVertices := [8] }], goodPrim p) ∧
    (∃ idxOut,
      loadPrims [({ payloadVertices := [7] } : GltfPrim Nat),
                 { hasTexCoord := false, payloadVertices := [8] }] [] []
        = .ok (concatAll
            (([({ payloadVertices := [7] } : GltfPrim Nat),
               { hasTexCoord := false, payloadVertices := [8] }].filter contributes).map
              GltfPrim.payloadVertices), idxOut)) :=
  ⟨⟨{ mode := 1 }, by simp, by decide⟩,
   gltf_load_spec.1 [{ mode := 1 }] [] [] ⟨{ mode := 1 }, by simp, by decide⟩,
   by intro p hp; rcases List.mem_cons.mp hp with rfl | hp2
      · exact ⟨Or.inl rfl, fun _ => rfl, fun _ => rfl⟩
      · rcases List.mem_cons.mp hp2 with rfl | h
        · exact ⟨Or.inl rfl, fun _ => rfl, fun h => by simp at h⟩
        · simp at h,
   gltf_load_spec.2 _ (by
      intro p hp; rcases List.mem_cons.mp hp with rfl | hp2
      · exact ⟨Or.inl rfl, fun _ => rfl, fun _ => rfl⟩
      · rcases List.mem_cons.mp hp2 with rfl | h
        · exact ⟨Or.inl rfl, fun _ => rfl, fun h => by simp at h⟩
        · simp at h)⟩

/-- C5 counterexample: a triangle primitive missing the POSITION attribute is
NOT rejected — `loadPrims` silently skips it and succeeds with empty geometry,
while the claim requires a descriptive error for a missing required vertex
attribute. -/
theorem gltf_missing_attribute_not_rejected :
    loadPrims [({ hasPosition := false, payloadVertices := [1, 2, 3] } : GltfPrim Nat)] [] []
      = .ok ([], []) := by
  rfl

end Volchara

namespace VolcharaRot

theorem norm_glmQuatFromEuler (e1 e2 e3 : ℝ) : ‖glmQuatFromEuler e1 e2 e3‖ = 1 := by
  have hsq : Quaternion.normSq (glmQuatFromEuler e1 e2 e3) = 1 := by
    rw [Quaternion.normSq_def']
    show (Real.cos (e1/2) * Real.cos (e2/2) * Real.cos (e3/2)
        + Real.sin (e1/2) * Real.sin (e2/2) * Real.sin (e3/2)) ^ 2
      + (Real.sin (e1/2) * Real.cos (e2/2) * Real.cos (e3/2)
        - Real.cos (e1/2) * Real.sin (e2/2) * Real.sin (e3/2)) ^ 2
      + (Real.cos (e1/2) * Real.sin (e2/2) * Real.cos (e3/2)
        + Real.sin (e1/2) * Real.cos (e2/2) * Real.sin (e3/2)) ^ 2
      + (Real.cos (e1/2) * Real.cos (e2/2) * Real.sin (e3/2)
        - Real.sin (e1/2) * Real.sin (e2/2) * Real.cos (e3/2)) ^ 2 = 1
    linear_combination
      ((Real.sin (e2/2)) ^ 2 + (Real.cos (e2/2)) ^ 2)
          * ((Real.sin (e3/2)) ^ 2 + (Real.cos (e3/2)) ^ 2)
          * Real.sin_sq_add_cos_sq (e1/2)
        + ((Real.sin (e3/2)) ^ 2 + (Real.cos (e3/2)) ^ 2) * Real.sin_sq_add_cos_sq (e2/2)
        + Real.sin_sq_add_cos_sq (e3/2)
  have hmul : ‖glmQuatFromEuler e1 e2 e3‖ * ‖glmQuatFromEuler e1 e2 e3‖ = 1 := by
    rw [← Quaternion.normSq_eq_norm_mul_self, hsq]
  rcases mul_self_eq_one_iff.mp hmul with h | h
  · exact h
  · exfalso
    have := norm_nonneg (glmQuatFromEuler e1 e2 e3)
    rw [h] at this
    linarith

theorem norm_glmNormalize {q : Quaternion ℝ} (h : ‖q‖ = 1) : ‖glmNormalize q‖ = 1 := by
  rw [glmNormalize, norm_smul, h]
  simp

theorem rotUp_norm (deg : ℝ) (w : Bool) (q : Quaternion ℝ) (h : ‖q‖ = 1) :
    ‖rotUp deg w q‖ = 1 := by
  unfold rotUp
  split
  · exact norm_glmNormalize (by rw [norm_mul, norm_glmQuatFromEuler, h, one_mul])
  · exact norm_glmNormalize (by rw [norm_mul, norm_glmQuatFromEuler, h, mul_one])

theorem rotLeft_norm (deg : ℝ) (w : Bool) (q : Quaternion ℝ) (h : ‖q‖ = 1) :
    ‖rotLeft deg w q‖ = 1 := by
  unfold rotLeft
  split
  · exact norm_glmNormalize (by rw [norm_mul, norm_glmQuatFromEuler, h, one_mul])
  · exact norm_glmNormalize (by rw [norm_mul, norm_glmQuatFromEuler, h, mul_one])

theorem rotCw_norm (deg : ℝ) (w : Bool) (q : Quaternion ℝ) (h : ‖q‖ = 1) :
    ‖rotCw deg w q‖ = 1 := by
  unfold rotCw
  split
  · exact norm_glmNormalize (by rw [norm_mul, norm_glmQuatFromEuler, h, one_mul])
  · exact norm_glmNormalize (by rw [norm_mul, norm_glmQuatFromEuler, h, mul_one])

theorem applyRotOp_norm (op : RotOp) (q : Quaternion ℝ) (h : ‖q‖ = 1) :
    ‖applyRotOp op q‖ = 1 := by
  obtain ⟨d, deg, w⟩ := op
  cases d
  · exact rotUp_norm deg w q h
  · exact rotUp_norm (-deg) w q h
  · exact rotLeft_norm deg w q h
  · exact rotLeft_norm (-deg) w q h
  · exact rotCw_norm deg w q h
  · exact rotCw_norm (-deg) w q h

/-- C9: starting from a unit orientation quaternion, every sequence of the
rotation operations `up/down/left/right/cw/ccw` (local or world frame) keeps
the orientation quaternion at norm exactly 1 (in exact real arithmetic),
because each operation re-normalizes after applying the incremental rotation
(objects.cpp:120-149). -/
theorem rotations_preserve_unit_norm (ops : List RotOp) (q : Quaternion ℝ)
    (h : ‖q‖ = 1) : ‖applyRotOps ops q‖ = 1 := by
  induction ops generalizing q with
  | nil => simpa [applyRotOps] using h
  | cons op rest ih =>
    have h1 : ‖applyRotOp op q‖ = 1 := applyRotOp_norm op q h
    simpa [applyRotOps] using ih (applyRotOp op q) h1

/-- Witness for C9: the identity quaternion stays unit through a concrete
sequence of rotations. -/
theorem rotations_preserve_unit_norm_witness :
    ‖(1 : Quaternion ℝ)‖ = 1 ∧
    ‖applyRotOps [⟨.up, 30, false⟩, ⟨.cw, 45, true⟩, ⟨.left, 10, false⟩] 1‖ = 1 :=
  ⟨norm_one, rotations_preserve_unit_norm _ 1 norm_one⟩

end VolcharaRot

namespace Volchara

theorem flattenPut_nil {α : Type} : flattenPut ([] : List (ObjTree α)) = [] := by
  rw [flattenPut.eq_def]

theorem flattenPut_cons {α : Type} (t : ObjTree α) (rest : List (ObjTree α)) :
    flattenPut (t :: rest) = t :: flattenPut (rest ++ t.children) := by
  rw [flattenPut.eq_def]

theorem flattenRecord_nil {α : Type} : flattenRecord ([] : List (ObjTree α)) = [] := by
  rw [flattenRecord.eq_def]

theorem flattenRecord_cons {α : Type} (t : ObjTree α) (rest : List (ObjTree α)) :
    flattenRecord (t :: rest) = t :: flattenRecord (rest ++ t.children) := by
  rw [flattenRecord.eq_def]

theorem sizeList_append {α : Type} (l₁ l₂ : List (ObjTree α)) :
    ObjTree.sizeList (l₁ ++ l₂) = ObjTree.sizeList l₁ + ObjTree.sizeList l₂ := by
  induction l₁ with
  | nil => simp [ObjTree.sizeList]
  | cons x xs ih => simp [ObjTree.sizeList, ih]; omega

theorem size_eq {α : Type} (t : ObjTree α) :
    ObjTree.size t = 1 + ObjTree.sizeList t.children := by
  cases t
  rfl

theorem dfs_eq {α : Type} (t : ObjTree α) :
    ObjTree.dfs t = t :: ObjTree.dfsList t.children := by
  cases t
  rfl

theorem dfsList_append {α : Type} (l₁ l₂ : List (ObjTree α)) :
    ObjTree.dfsList (l₁ ++ l₂) = ObjTree.dfsList l₁ ++ ObjTree.dfsList l₂ := by
  induction l₁ with
  | nil => simp [ObjTree.dfsList]
  | cons x xs ih => simp [ObjTree.dfsList, ih]

theorem flattenPut_length {α : Type} (q : List (ObjTree α)) :
    (flattenPut q).length = ObjTree.sizeList q := by
  induction q using flattenPut.induct with
  | case1 => simp [flattenPut_nil, ObjTree.sizeList]
  | case2 t rest ih =>
    rw [flattenPut_cons]
    simp only [List.length_cons, ih, sizeList_append, ObjTree.sizeList, size_eq]
    omega

theorem flattenPut_perm {α : Type} (q : List (ObjTree α)) :
    (flattenPut q).Perm (ObjTree.dfsList q) := by
  induction q using flattenPut.induct with
  | case1 => simp [flattenPut_nil, ObjTree.dfsList]
  | case2 t rest ih =>
    rw [flattenPut_cons]
    have hd : ObjTree.dfsList (t :: rest)
        = t :: (ObjTree.dfsList t.children ++ ObjTree.dfsList rest) := by
      show ObjTree.dfs t ++ ObjTree.dfsList rest = _
      rw [dfs_eq]
      simp
    rw [hd]
    refine List.Perm.cons t ?_
    refine (ih.trans ?_)
    rw [dfsList_append]
    exact List.perm_append_comm

theorem mem_flattenPut {α : Type} (q : List (ObjTree α)) (t : ObjTree α) (h : t ∈ q) :
    t ∈ flattenPut q := by
  induction q using flattenPut.induct with
  | case1 => simp at h
  | case2 s rest ih =>
    rw [flattenPut_cons]
    rcases List.mem_cons.mp h with rfl | h2
    · exact List.mem_cons_self _ _
    · exact List.mem_cons_of_mem _ (ih (List.mem_append_left _ h2))

theorem flattenPut_child_after {α : Type} (q : List (ObjTree α)) :
    ∀ (i : Nat) (hi : i < (flattenPut q).length) (c : ObjTree α),
      c ∈ ((flattenPut q).get ⟨i, hi⟩).children →
      ∃ (j : Nat) (hj : j < (flattenPut q).length),
        i < j ∧ (flattenPut q).get ⟨j, hj⟩ = c := by
  induction q using flattenPut.induct with
  | case1 => intro i hi; rw [flattenPut_nil] at hi; simp at hi
  | case2 t rest ih =>
    rw [flattenPut_cons]
    intro i hi c hc
    cases i with
    | zero =>
      simp only [List.get] at hc
      have hmem : c ∈ flattenPut (rest ++ t.children) :=
        mem_flattenPut _ c (List.mem_append_right _ hc)
      obtain ⟨⟨j, hj⟩, hget⟩ := List.mem_iff_get.mp hmem
      exact ⟨j + 1, by simpa using Nat.succ_lt_succ hj, Nat.succ_pos j, by simpa using hget⟩
    | succ n =>
      have hn : n < (flattenPut (rest ++ t.children)).length := by
        simpa using Nat.lt_of_succ_lt_succ hi
      have hc2 : c ∈ ((flattenPut (rest ++ t.children)).get ⟨n, hn⟩).children := by
        simpa using hc
      obtain ⟨j, hj, hij, hget⟩ := ih n hn c hc2
      exact ⟨j + 1, by simpa using Nat.succ_lt_succ hj, Nat.succ_lt_succ hij,
        by simpa using hget⟩

theorem flattenPut_example :
    flattenPut [ObjTree.mk 0 [ObjTree.mk 2 []], ObjTree.mk 1 []]
      = [ObjTree.mk 0 [ObjTree.mk 2 []], ObjTree.mk 1 [], ObjTree.mk 2 []] := by
  rw [flattenPut_cons]
  simp only [ObjTree.children, List.cons_append, List.nil_append, List.append_nil]
  rw [flattenPut_cons]
  simp only [ObjTree.children, List.cons_append, List.nil_append, List.append_nil]
  rw [flattenPut_cons]
  simp only [ObjTree.children, List.cons_append, List.nil_append, List.append_nil]
  rw [flattenPut_nil]

/-- C2 (amended): the per-frame flattening of the object list
(renderer.cpp:101-108 / 1618-1625) produces exactly N entries for a forest of
N reachable nodes, visits each node exactly once (it is a permutation of the
preorder listing), and every parent precedes each of its children — but the
order is breadth-first (level order), not depth-first. -/
theorem flatten_spec {α : Type} (roots : List (ObjTree α)) :
    (flattenPut roots).length = ObjTree.sizeList roots ∧
    (flattenPut roots).Perm (ObjTree.dfsList roots) ∧
    (∀ (i : Nat) (hi : i < (flattenPut roots).length) (c : ObjTree α),
      c ∈ ((flattenPut roots).get ⟨i, hi⟩).children →
      ∃ (j : Nat) (hj : j < (flattenPut roots).length),
        i < j ∧ (flattenPut roots).get ⟨j, hj⟩ = c) :=
  ⟨flattenPut_length roots, flattenPut_perm roots, flattenPut_child_after roots⟩

/-- Witness for C2 on the forest `[A[C], B]` with labels A=0, B=1, C=2: three
entries, and the child C appears at a position after its parent A (position
0). -/
theorem flatten_spec_witness :
    (flattenPut [ObjTree.mk 0 [ObjTree.mk 2 []], ObjTree.mk 1 []]).length = 3 ∧
    (∃ (j : Nat) (hj : j < (flattenPut [ObjTree.mk 0 [ObjTree.mk 2 []],
        ObjTree.mk 1 []]).length),
      0 < j ∧ (flattenPut [ObjTree.mk 0 [ObjTree.mk 2 []],
        ObjTree.mk 1 []]).get ⟨j, hj⟩ = ObjTree.mk 2 []) := by
  have hflat := flattenPut_example
  have hlen3 : (flattenPut [ObjTree.mk 0 [ObjTree.mk 2 []], ObjTree.mk 1 []]).length = 3 := by
    rw [hflat]
    rfl
  have hi : 0 < (flattenPut [ObjTree.mk 0 [ObjTree.mk 2 []], ObjTree.mk 1 []]).length := by
    omega
  have key : ∀ (l : List (ObjTree Nat)),
      l = [ObjTree.mk 0 [ObjTree.mk 2 []], ObjTree.mk 1 [], ObjTree.mk 2 []] →
      ∀ (h0 : 0 < l.length), ObjTree.mk 2 [] ∈ (l.get ⟨0, h0⟩).children := by
    intro l hl
    subst hl
    intro h0
    simp [ObjTree.children]
  exact ⟨hlen3,
    (flatten_spec [ObjTree.mk 0 [ObjTree.mk 2 []], ObjTree.mk 1 []]).2.2 0 hi
      (ObjTree.mk 2 []) (key _ hflat hi)⟩

/-- C2 counterexample: on the forest `[A[C], B]` the flattening emits
`A, B, C` — B comes between A and A's child C — while the depth-first
(preorder) sequence is `A, C, B`; the flattened order is therefore not
depth-first. -/
theorem flatten_not_depth_first :
    ((flattenPut [ObjTree.mk 0 [ObjTree.mk 2 []], ObjTree.mk 1 []]).map ObjTree.data)
      = [0, 1, 2] ∧
    ((ObjTree.dfsList [ObjTree.mk 0 [ObjTree.mk 2 []], ObjTree.mk 1 []]).map ObjTree.data)
      = [0, 2, 1] ∧
    ([0, 1, 2] : List Nat) ≠ [0, 2, 1] := by
  refine ⟨?_, ?_, by decide⟩
  · rw [flattenPut_example]
    simp [ObjTree.data]
  · simp [ObjTree.dfsList, ObjTree.dfs, ObjTree.data]

theorem flattenRecord_eq_flattenPut {α : Type} (q : List (ObjTree α)) :
    flattenRecord q = flattenPut q := by
  induction q using flattenRecord.induct with
  | case1 => rw [flattenRecord_nil, flattenPut_nil]
  | case2 t rest ih => rw [flattenRecord_cons, flattenPut_cons, ih]

theorem drawPassGo_mem (pass : Bool) :
    ∀ (objs : List ObjData) (acc i : Nat) (hi : i < objs.length),
      (objs.get ⟨i, hi⟩).transparent = pass →
      (⟨(objs.get ⟨i, hi⟩).transform.modelMatrix, (objs.get ⟨i, hi⟩).textureIndex,
        acc + idxBefore objs i, (objs.get ⟨i, hi⟩).indices.length⟩ : DrawCmd)
        ∈ drawPassGo pass objs acc := by
  intro objs
  induction objs with
  | nil => intro acc i hi; simp at hi
  | cons o rest ih =>
    intro acc i hi ht
    cases i with
    | zero =>
      have h0 : idxBefore (o :: rest) 0 = 0 := by simp [idxBefore]
      simp only [List.get] at ht ⊢
      rw [h0, Nat.add_zero]
      simp [drawPassGo, ht]
    | succ n =>
      have hn : n < rest.length := Nat.lt_of_succ_lt_succ hi
      have hstep : idxBefore (o :: rest) (n + 1) = o.indices.length + idxBefore rest n := by
        simp [idxBefore, List.take_succ_cons]
      have hget : (o :: rest).get ⟨n + 1, hi⟩ = rest.get ⟨n, hn⟩ := rfl
      have ih2 := ih (acc + o.indices.length) n hn (by rw [← hget]; exact ht)
      rw [hget, hstep, ← Nat.add_assoc]
      by_cases hp : o.transparent = pass
      · simp only [drawPassGo, hp, if_pos]
        exact List.mem_cons_of_mem _ ih2
      · simp only [drawPassGo, hp, if_neg, ite_false]
        exact ih2

theorem idxBefore_eq_packedIdxBefore :
    ∀ (objs : List ObjData), (∀ o ∈ objs, o.vertices = [] → o.indices = []) →
      ∀ (i : Nat), idxBefore objs i = packedIdxBefore objs i := by
  intro objs
  induction objs with
  | nil => intro h i; simp [idxBefore, packedIdxBefore]
  | cons o rest ih =>
    intro h i
    cases i with
    | zero => simp [idxBefore, packedIdxBefore]
    | succ n =>
      have hrest : ∀ q ∈ rest, q.vertices = [] → q.indices = [] :=
        fun q hq => h q (List.mem_cons_of_mem o hq)
      have ihn := ih hrest n
      unfold idxBefore packedIdxBefore at ihn ⊢
      rw [List.take_succ_cons, List.map_cons, List.sum_cons, List.filter_cons]
      by_cases ho : o.vertices.isEmpty
      · have hoe : o.vertices = [] := by simpa [List.isEmpty_iff] using ho
        have hoi : o.indices = [] := h o (List.mem_cons_self o rest) hoe
        have hcond : (!o.vertices.isEmpty) = false := by simp [ho]
        rw [hcond, hoi]
        simpa using ihn
      · have hcond : (!o.vertices.isEmpty) = true := by simp [ho]
        rw [hcond]
        simp only [if_true, List.map_cons, List.sum_cons]
        rw [ihn]

/-- C8 (amended): the node order used by `putObjectsToBuffer` to pack geometry
and the node order used by `recordCommandBuffer` to issue draw calls are the
same flattening, and — provided every node with an empty vertex array also has
an empty index array, which is the only case the packer skips — each drawn
object's `firstIndex` equals the total index count of the objects packed
before it. -/
theorem pack_draw_order_spec :
    (∀ (α : Type) (roots : List (ObjTree α)), flattenRecord roots = flattenPut roots) ∧
    (∀ (objs : List ObjData), (∀ o ∈ objs, o.vertices = [] → o.indices = []) →
      ∀ (pass : Bool) (i : Nat) (hi : i < objs.length),
        (objs.get ⟨i, hi⟩).transparent = pass →
        (⟨(objs.get ⟨i, hi⟩).transform.modelMatrix, (objs.get ⟨i, hi⟩).textureIndex,
          packedIdxBefore objs i, (objs.get ⟨i, hi⟩).indices.length⟩ : DrawCmd)
          ∈ drawPassGo pass objs 0) := by
  refine ⟨fun α roots => flattenRecord_eq_flattenPut roots, ?_⟩
  intro objs h pass i hi ht
  have hm := drawPassGo_mem pass objs 0 i hi ht
  rwa [Nat.zero_add, idxBefore_eq_packedIdxBefore objs h i] at hm

/-- Witness for C8: a single opaque object with one vertex and three indices
is drawn with `firstIndex` 0, the packed index count before it. -/
theorem pack_draw_order_witness :
    (∀ o ∈ [({ vertices := [{}], indices := [0, 1, 2] } : ObjData)],
      o.vertices = [] → o.indices = []) ∧
    (⟨TransformQ.modelMatrix {}, 0,
      packedIdxBefore [({ vertices := [{}], indices := [0, 1, 2] } : ObjData)] 0, 3⟩ : DrawCmd)
      ∈ drawPassGo false [({ vertices := [{}], indices := [0, 1, 2] } : ObjData)] 0 :=
  ⟨by decide,
    pack_draw_order_spec.2 [{ vertices := [{}], indices := [0, 1, 2] }] (by decide)
      false 0 (by decide) rfl⟩

/-- C8 counterexample: with a first object whose vertex array is empty but
whose index array is not, the draw loop's `alreadyDrawn` still counts its
index, so the second object is drawn with `firstIndex` 1 even though the
packer packed no index before it (its packed offset is 0). -/
theorem draw_offset_counterexample :
    ((drawPassGo false [({ indices := [0] } : ObjData),
        { vertices := [{}], indices := [0] }] 0).map DrawCmd.firstIndex) = [0, 1] ∧
    packedIdxBefore [({ indices := [0] } : ObjData),
      { vertices := [{}], indices := [0] }] 1 = 0 ∧
    (1 : Nat) ≠ 0 :=
  ⟨rfl, rfl, by decide⟩

theorem recordDraws_pair (pass : Bool) (pd cd : ObjData) :
    recordDraws pass [ObjTree.mk pd [ObjTree.mk cd []]] = drawPassGo pass [pd, cd] 0 := by
  unfold recordDraws
  rw [flattenRecord_cons]
  simp only [ObjTree.children, List.nil_append]
  rw [flattenRecord_cons]
  simp only [ObjTree.children, List.nil_append, List.append_nil]
  rw [flattenRecord_nil]
  simp [ObjTree.data]

/-- C1 (amended): in a two-level hierarchy the rendered (push-constant) model
matrix of each node — the child included — is that node's own local
translate × rotate × scale matrix; the parent's transform is not composed into
the child's rendered matrix (`recordCommandBuffer` pushes
`transform.modelMatrix()` of the node alone, renderer.cpp:1631). -/
theorem rendered_model_is_own_local (pT cT : TransformQ) :
    (recordDraws false [ObjTree.mk ({ transform := pT } : ObjData)
        [ObjTree.mk ({ transform := cT } : ObjData) []]]).map DrawCmd.model
      = [pT.modelMatrix, cT.modelMatrix] := by
  rw [recordDraws_pair]
  simp [drawPassGo]

/-- C1 counterexample: with the spec's own example — parent translated by
(1,0,0), child translated by (0,1,0) and scaled ×2 — the child's rendered
model matrix is NOT the parent's model matrix times the child's local matrix
(the rendered matrix places the child at (0,1,0), not (1,1,0)). -/
theorem rendered_model_counterexample :
    ((recordDraws false [ObjTree.mk ({ transform := ⟨⟨1, 0, 0⟩, ⟨1, 1, 1⟩, ⟨1, 0, 0, 0⟩⟩ } : ObjData)
        [ObjTree.mk ({ transform := ⟨⟨0, 1, 0⟩, ⟨2, 2, 2⟩, ⟨1, 0, 0, 0⟩⟩ } : ObjData) []]]).map
      DrawCmd.model)
      ≠ [TransformQ.modelMatrix ⟨⟨1, 0, 0⟩, ⟨1, 1, 1⟩, ⟨1, 0, 0, 0⟩⟩,
         mat4Mul (TransformQ.modelMatrix ⟨⟨1, 0, 0⟩, ⟨1, 1, 1⟩, ⟨1, 0, 0, 0⟩⟩)
           (TransformQ.modelMatrix ⟨⟨0, 1, 0⟩, ⟨2, 2, 2⟩, ⟨1, 0, 0, 0⟩⟩)] := by
  rw [recordDraws_pair]
  intro h
  simp only [drawPassGo, eq_self_iff_true, if_true, List.map_cons, List.map_nil,
    List.cons.injEq, and_true] at h
  have h3 := congrArg Mat4.m03 h.2
  norm_num [TransformQ.modelMatrix, mat4Mul, glmTranslate, glmScale, glmToMat4] at h3

end Volchara
